import Mathlib

/-!
Verification of the Velox date/time utilities (velox/type/TimestampConversion,
declared in the repository header) and of the task trace metadata writer
(velox/exec/TaskTraceWriter.cpp).

The date/time function bodies are not part of the repository snapshot (only the
declaring header with its doc comments is), so those functions are modelled
from the specification and from the doc comments in the header; the trace
writer is embedded directly from its source file.

Machine integers (int32_t, int64_t) are modelled as unbounded Int: all the
quantities involved (day counts ~1.07e11 at the extreme years, microseconds of
a day, millisecond offsets) fit comfortably in int64_t, so overflow is not a
behavior of interest on the validated ranges.
-/

/-- Constants from the source header (lines 29-53). -/
def kHoursPerDay : Int := 24

def kSecsPerMinute : Int := 60

def kMinsPerHour : Int := 60

def kMillisPerSecond : Int := 1000

def kMillisPerMinute : Int := kMillisPerSecond * kSecsPerMinute

def kMillisPerHour : Int := kMillisPerMinute * kMinsPerHour

def kMicrosPerSec : Int := 1000000

def kMicrosPerMinute : Int := kMicrosPerSec * kSecsPerMinute

def kMicrosPerHour : Int := kMicrosPerMinute * kMinsPerHour

def kNanosPerMicro : Int := 1000

def kSecsPerDay : Int := 86400

/-- Min year, from the source header line 49 (matches Joda datetime minimum). -/
def kMinYear : Int := -292275055

/-- Max year, from the source header line 50 (matches Joda datetime maximum). -/
def kMaxYear : Int := 292278994

def kYearInterval : Int := 400

def kDaysPerYearInterval : Int := 146097

/-- Modelled from the spec: proleptic Gregorian leap-year rule, divisible by 4
and (not divisible by 100 or divisible by 400). Written with `%` equality
tests the way the C++ body would; `Int.emod` and C++ truncated `%` agree on
comparisons with zero. -/
def isLeapYear (year : Int) : Bool :=
  year % 4 == 0 && (year % 100 != 0 || year % 400 == 0)

/-- Month length table indexed by a leap flag; helper for `getMaxDayOfMonth`. -/
def maxDayOfMonthB (leap : Bool) (month : Int) : Int :=
  if month = 2 then (if leap then 29 else 28)
  else if month = 4 ∨ month = 6 ∨ month = 9 ∨ month = 11 then 30
  else 31

/-- Modelled from the spec: standard month lengths, February adjusted by
`isLeapYear`. -/
def getMaxDayOfMonth (year month : Int) : Int :=
  maxDayOfMonthB (isLeapYear year) month

/-- Modelled from the spec: month in [1,12], day in [1, daysInMonth]; the year
is unrestricted here (range enforcement happens at call sites). -/
def isValidDate (year month day : Int) : Bool :=
  decide (1 ≤ month ∧ month ≤ 12 ∧ 1 ≤ day ∧ day ≤ getMaxDayOfMonth year month)

/-- Number of proleptic-Gregorian leap years t with t < year, relative to the
common anchoring of the leap-count function; only differences of this function
are used. `/` on Int is Euclidean division, which for the positive literal
divisors used here is floor division. -/
def leapDaysBefore (year : Int) : Int :=
  (year - 1) / 4 - (year - 1) / 100 + (year - 1) / 400

/-- Cumulative days before the given month (1-based), with the leap flag of
the year. -/
def monthDaysBefore (leap : Bool) (month : Int) : Int :=
  (if month ≤ 1 then 0
   else if month ≤ 2 then 31
   else
    (if leap then 1 else 0) +
    (if month ≤ 3 then 59
     else if month ≤ 4 then 90
     else if month ≤ 5 then 120
     else if month ≤ 6 then 151
     else if month ≤ 7 then 181
     else if month ≤ 8 then 212
     else if month ≤ 9 then 243
     else if month ≤ 10 then 273
     else if month ≤ 11 then 304
     else 334))

/-- Modelled from the spec: epoch day number of January 1 of `year`, computed
with the 400-year-cycle decomposition (`kYearInterval` = 400 years equal
exactly `kDaysPerYearInterval` = 146097 days): the year is first normalized
into [1970, 2370) by shifting whole 400-year intervals, as the C++ body does
to keep intermediate values in safe integer bounds. -/
def dayNumber (year : Int) : Int :=
  let k := (year - 1970) / kYearInterval
  let yn := year - kYearInterval * k
  kDaysPerYearInterval * k + 365 * (yn - 1970) + (leapDaysBefore yn - leapDaysBefore 1970)

/-- Modelled from the spec: computes the signed number of days since the unix
epoch (1970-01-01); validates the year range and `isValidDate`, returning a
user error if validation fails (source header lines 105-108). -/
def daysSinceEpochFromDate (year month day : Int) : Except String Int :=
  if year < kMinYear ∨ kMaxYear < year then
    .error "Date out of range"
  else if isValidDate year month day then
    .ok (dayNumber year + monthDaysBefore (isLeapYear year) month + (day - 1))
  else
    .error "Date out of range"

/- ## Calendar arithmetic lemmas -/

theorem isLeapYear_iff (year : Int) :
    isLeapYear year = true ↔ (year % 4 = 0 ∧ (year % 100 ≠ 0 ∨ year % 400 = 0)) := by
  unfold isLeapYear
  simp [Bool.and_eq_true, Bool.or_eq_true]

theorem isValidDate_iff (year month day : Int) :
    isValidDate year month day = true ↔
      (1 ≤ month ∧ month ≤ 12 ∧ 1 ≤ day ∧ day ≤ getMaxDayOfMonth year month) := by
  unfold isValidDate
  simp

/-- The 400-year-cycle decomposition agrees with the direct linear-plus-leaps
formula for the epoch day number of January 1. -/
theorem dayNumber_eq (year : Int) :
    dayNumber year = 365 * (year - 1970) + leapDaysBefore year - leapDaysBefore 1970 := by
  simp only [dayNumber, leapDaysBefore, kYearInterval, kDaysPerYearInterval]
  omega

/-- Stepping one year forward advances the epoch day number of January 1 by
the length of the year stepped over. -/
theorem dayNumber_step (year : Int) :
    dayNumber (year + 1) = dayNumber year + (if isLeapYear year then 366 else 365) := by
  rw [dayNumber_eq, dayNumber_eq]
  unfold leapDaysBefore
  by_cases h : year % 4 = 0 ∧ (year % 100 ≠ 0 ∨ year % 400 = 0)
  · rw [if_pos ((isLeapYear_iff year).mpr h)]
    omega
  · rw [if_neg (fun hc => h ((isLeapYear_iff year).mp hc))]
    omega

/-- The epoch day number of January 1 is monotone in the year. -/
theorem dayNumber_mono {a b : Int} (h : a ≤ b) : dayNumber a ≤ dayNumber b := by
  rw [dayNumber_eq, dayNumber_eq]
  unfold leapDaysBefore
  omega

/-- Explicit table of the cumulative month offsets and month lengths, in a
disjunctive linear form suitable for `omega`. -/
theorem monthDaysBefore_cases (leap : Bool) (m : Int) (h1 : 1 ≤ m) (h2 : m ≤ 12) :
    (m = 1 ∧ monthDaysBefore leap m = 0 ∧ maxDayOfMonthB leap m = 31) ∨
    (m = 2 ∧ monthDaysBefore leap m = 31 ∧
      maxDayOfMonthB leap m = 28 + (if leap then 1 else 0)) ∨
    (m = 3 ∧ monthDaysBefore leap m = 59 + (if leap then 1 else 0) ∧
      maxDayOfMonthB leap m = 31) ∨
    (m = 4 ∧ monthDaysBefore leap m = 90 + (if leap then 1 else 0) ∧
      maxDayOfMonthB leap m = 30) ∨
    (m = 5 ∧ monthDaysBefore leap m = 120 + (if leap then 1 else 0) ∧
      maxDayOfMonthB leap m = 31) ∨
    (m = 6 ∧ monthDaysBefore leap m = 151 + (if leap then 1 else 0) ∧
      maxDayOfMonthB leap m = 30) ∨
    (m = 7 ∧ monthDaysBefore leap m = 181 + (if leap then 1 else 0) ∧
      maxDayOfMonthB leap m = 31) ∨
    (m = 8 ∧ monthDaysBefore leap m = 212 + (if leap then 1 else 0) ∧
      maxDayOfMonthB leap m = 31) ∨
    (m = 9 ∧ monthDaysBefore leap m = 243 + (if leap then 1 else 0) ∧
      maxDayOfMonthB leap m = 30) ∨
    (m = 10 ∧ monthDaysBefore leap m = 273 + (if leap then 1 else 0) ∧
      maxDayOfMonthB leap m = 31) ∨
    (m = 11 ∧ monthDaysBefore leap m = 304 + (if leap then 1 else 0) ∧
      maxDayOfMonthB leap m = 30) ∨
    (m = 12 ∧ monthDaysBefore leap m = 334 + (if leap then 1 else 0) ∧
      maxDayOfMonthB leap m = 31) := by
  interval_cases m <;> cases leap <;> decide

/-- Within one year, the month/day offset into the year is nonnegative and
smaller than the length of the year. -/
theorem monthOffset_bound (leap : Bool) (m d : Int)
    (hm1 : 1 ≤ m) (hm2 : m ≤ 12) (hd1 : 1 ≤ d) (hd2 : d ≤ maxDayOfMonthB leap m) :
    0 ≤ monthDaysBefore leap m + (d - 1) ∧
    monthDaysBefore leap m + (d - 1) < (if leap then 366 else 365) := by
  have hc := monthDaysBefore_cases leap m hm1 hm2
  cases leap <;> simp only [Bool.false_eq_true, if_true, if_false] at hc ⊢ <;> omega

/-- Within one year, the month/day offset into the year determines the month
and the day. -/
theorem monthOffset_inj (leap : Bool) (m d m2 d2 : Int)
    (hm1 : 1 ≤ m) (hm2 : m ≤ 12) (hd1 : 1 ≤ d) (hd2 : d ≤ maxDayOfMonthB leap m)
    (hn1 : 1 ≤ m2) (hn2 : m2 ≤ 12) (he1 : 1 ≤ d2) (he2 : d2 ≤ maxDayOfMonthB leap m2)
    (heq : monthDaysBefore leap m + (d - 1) = monthDaysBefore leap m2 + (d2 - 1)) :
    m = m2 ∧ d = d2 := by
  have hc := monthDaysBefore_cases leap m hm1 hm2
  have hc2 := monthDaysBefore_cases leap m2 hn1 hn2
  cases leap <;> simp only [Bool.false_eq_true, if_true, if_false] at hc hc2 <;> omega

theorem getMaxDayOfMonth_eq (y m : Int) :
    getMaxDayOfMonth y m = maxDayOfMonthB (isLeapYear y) m := rfl

/-- Inversion of a successful `daysSinceEpochFromDate`. -/
theorem daysSinceEpochFromDate_ok (y m d n : Int)
    (h : daysSinceEpochFromDate y m d = .ok n) :
    kMinYear ≤ y ∧ y ≤ kMaxYear ∧ isValidDate y m d = true ∧
    n = dayNumber y + monthDaysBefore (isLeapYear y) m + (d - 1) := by
  unfold daysSinceEpochFromDate at h
  split at h
  · exact absurd h (by simp)
  next h1 =>
    split at h
    next h2 =>
      refine ⟨by omega, by omega, h2, ?_⟩
      exact (Except.ok.inj h).symm
    · exact absurd h (by simp)

/-- A valid date of year `y` has its epoch day number in
[dayNumber y, dayNumber (y+1)). -/
theorem epochDay_bounds (y m d : Int) (hv : isValidDate y m d = true) :
    dayNumber y ≤ dayNumber y + monthDaysBefore (isLeapYear y) m + (d - 1) ∧
    dayNumber y + monthDaysBefore (isLeapYear y) m + (d - 1) < dayNumber (y + 1) := by
  rw [dayNumber_step y]
  obtain ⟨h1, h2, h3, h4⟩ := (isValidDate_iff y m d).mp hv
  rw [getMaxDayOfMonth_eq] at h4
  have hb := monthOffset_bound (isLeapYear y) m d h1 h2 h3 h4
  rcases hl : isLeapYear y <;> rw [hl] at hb <;> simp only [Bool.false_eq_true, if_true, if_false] at hb ⊢ <;> omega

/-- Two valid dates with the same epoch day number share the year. -/
theorem epochDay_year_inj {y m d y2 m2 d2 : Int}
    (hav : isValidDate y m d = true) (hbv : isValidDate y2 m2 d2 = true)
    (heq : dayNumber y + monthDaysBefore (isLeapYear y) m + (d - 1)
         = dayNumber y2 + monthDaysBefore (isLeapYear y2) m2 + (d2 - 1)) :
    y = y2 := by
  by_contra hne
  have e1 := epochDay_bounds y m d hav
  have e2 := epochDay_bounds y2 m2 d2 hbv
  rcases lt_or_gt_of_ne hne with hlt | hgt
  · have hm := dayNumber_mono (show y + 1 ≤ y2 by omega)
    omega
  · have hm := dayNumber_mono (show y2 + 1 ≤ y by omega)
    omega

/-- C1: `daysSinceEpochFromDate` maps (1970,1,1) to 0, (1969,12,31) to -1 and
(2000,2,29) to 11016, and on valid dates it is injective, so the epoch day
count corresponds back to the same (year, month, day) triple under any correct
inverse. -/
theorem daysSinceEpochFromDate_spec_C1 :
    daysSinceEpochFromDate 1970 1 1 = .ok 0 ∧
    daysSinceEpochFromDate 1969 12 31 = .ok (-1) ∧
    daysSinceEpochFromDate 2000 2 29 = .ok 11016 ∧
    ∀ y m d y2 m2 d2 n,
      daysSinceEpochFromDate y m d = .ok n →
      daysSinceEpochFromDate y2 m2 d2 = .ok n →
      y = y2 ∧ m = m2 ∧ d = d2 := by
  refine ⟨by rfl, by rfl, by rfl, ?_⟩
  intro y m d y2 m2 d2 n h h2
  obtain ⟨ha1, ha2, hav, han⟩ := daysSinceEpochFromDate_ok y m d n h
  obtain ⟨hb1, hb2, hbv, hbn⟩ := daysSinceEpochFromDate_ok y2 m2 d2 n h2
  have hyy : y = y2 := epochDay_year_inj hav hbv (by omega)
  subst hyy
  obtain ⟨g1, g2, g3, g4⟩ := (isValidDate_iff y m d).mp hav
  obtain ⟨k1, k2, k3, k4⟩ := (isValidDate_iff y m2 d2).mp hbv
  rw [getMaxDayOfMonth_eq] at g4 k4
  obtain ⟨hm, hd⟩ := monthOffset_inj (isLeapYear y) m d m2 d2 g1 g2 g3 g4 k1 k2 k3 k4 (by omega)
  exact ⟨rfl, hm, hd⟩

theorem daysSinceEpochFromDate_spec_C1_witness :
    (1970 : Int) = 1970 ∧ (1 : Int) = 1 ∧ (1 : Int) = 1 :=
  daysSinceEpochFromDate_spec_C1.2.2.2 1970 1 1 1970 1 1 0 (by rfl) (by rfl)

/-- C2: `daysSinceEpochFromDate` returns a user error (never a value) for the
invalid date (2021,2,29), for month 13 in any year, and for any year outside
[kMinYear, kMaxYear]; out-of-range input is rejected, not clamped. -/
theorem daysSinceEpochFromDate_invalid_C2 :
    (daysSinceEpochFromDate 2021 2 29).isOk = false ∧
    (∀ y : Int, (daysSinceEpochFromDate y 13 1).isOk = false) ∧
    (∀ y m d : Int, (y < kMinYear ∨ kMaxYear < y) →
      (daysSinceEpochFromDate y m d).isOk = false) := by
  refine ⟨by decide, fun y => ?_, fun y m d h => ?_⟩
  · have hv : isValidDate y 13 1 = false := rfl
    unfold daysSinceEpochFromDate
    split
    · rfl
    · rw [hv]
      try rfl
  · unfold daysSinceEpochFromDate
    rw [if_pos h]
    rfl

theorem daysSinceEpochFromDate_invalid_C2_witness :
    ((292278995 : Int) < kMinYear ∨ kMaxYear < 292278995) ∧
    (daysSinceEpochFromDate 292278995 1 1).isOk = false :=
  ⟨Or.inr (by decide),
   daysSinceEpochFromDate_invalid_C2.2.2 292278995 1 1 (Or.inr (by decide))⟩

/-- C3: `isLeapYear` decides exactly the proleptic Gregorian rule (divisible
by 4 and (not divisible by 100 or divisible by 400)) for every year, with the
concrete values at 2000, 2024, 1900 and 2023. -/
theorem isLeapYear_rule_C3 :
    (∀ y : Int, isLeapYear y =
      decide ((4 : Int) ∣ y ∧ (¬ (100 : Int) ∣ y ∨ (400 : Int) ∣ y))) ∧
    isLeapYear 2000 = true ∧ isLeapYear 2024 = true ∧
    isLeapYear 1900 = false ∧ isLeapYear 2023 = false := by
  refine ⟨fun y => ?_, by decide, by decide, by decide, by decide⟩
  have hiff := isLeapYear_iff y
  by_cases hp : (4 : Int) ∣ y ∧ (¬ (100 : Int) ∣ y ∨ (400 : Int) ∣ y)
  · rw [decide_eq_true hp]
    exact hiff.mpr (by omega)
  · rw [decide_eq_false hp]
    rcases hb : isLeapYear y
    · rfl
    · exfalso
      exact hp (by have := hiff.mp hb; omega)

/-- Modelled from the spec: ISO day of week (1 = Monday .. 7 = Sunday) of an
epoch day count, via modular arithmetic anchored at day 0 = 1970-01-01 =
Thursday = 4. -/
def extractISODayOfTheWeek (daysSinceEpoch : Int) : Int :=
  (daysSinceEpoch + 3) % 7 + 1

/-- Epoch day number of the first day of the given month. -/
def firstDayOfMonth (year month : Int) : Int :=
  dayNumber year + monthDaysBefore (isLeapYear year) month

/-- Modelled from the spec: number of week rows of the calendar grid of a
month, weeks starting on Monday; this is the week count bounding the
non-lenient weekOfMonth field. -/
def weeksOfMonth (year month : Int) : Int :=
  let firstDow := extractISODayOfTheWeek (firstDayOfMonth year month)
  ((firstDow - 1) + maxDayOfMonthB (isLeapYear year) month + 6) / 7

/-- Modelled from the spec: the day selected by the calendar-grid (spill-over)
semantics; week rows start at the Monday on or before the first day of the
month, so out-of-range weekOfMonth or dayOfWeek roll into adjacent months. -/
def weekOfMonthGridDay (year month weekOfMonth dayOfWeek : Int) : Int :=
  let firstDay := firstDayOfMonth year month
  let firstDow := extractISODayOfTheWeek firstDay
  firstDay - (firstDow - 1) + (weekOfMonth - 1) * 7 + (dayOfWeek - 1)

/-- Modelled from the spec and the header doc comment (source lines 117-147):
non-lenient mode requires year in [1, kMaxYear], month in [1,12], weekOfMonth
in [1, weeks of the month] and dayOfWeek in [1,7] and returns a user error on
any violation; lenient mode wraps out-of-range months into adjacent years
(13 is January of the next year, -1 is November of the previous year) and lets
weekOfMonth/dayOfWeek spill into adjacent months via the calendar grid. The
only error source the spec leaves to lenient mode is internal int64 overflow,
which cannot occur in the unbounded Int model, so the lenient branch is total. -/
def daysSinceEpochFromWeekOfMonthDate
    (year month weekOfMonth dayOfWeek : Int) (lenient : Bool) : Except String Int :=
  if lenient then
    let yAdj := year + (month - 1) / 12
    let mAdj := (month - 1) % 12 + 1
    .ok (weekOfMonthGridDay yAdj mAdj weekOfMonth dayOfWeek)
  else if year < 1 ∨ kMaxYear < year ∨ month < 1 ∨ 12 < month
      ∨ weekOfMonth < 1 ∨ weeksOfMonth year month < weekOfMonth
      ∨ dayOfWeek < 1 ∨ 7 < dayOfWeek then
    .error "Date out of range"
  else
    .ok (weekOfMonthGridDay year month weekOfMonth dayOfWeek)

/-- C4: with a weekOfMonth outside the month's actual week count (the other
fields being in their non-lenient ranges) the non-lenient mode returns a user
error while the lenient mode returns a value; lenient mode never returns a
user error for any input (its only remaining error source, internal int64
overflow, has no counterpart for unbounded integers). -/
theorem daysSinceEpochFromWeekOfMonthDate_C4 :
    (∀ y m w dw : Int,
      (daysSinceEpochFromWeekOfMonthDate y m w dw true).isOk = true) ∧
    (∀ y m w dw : Int, 1 ≤ y → y ≤ kMaxYear → 1 ≤ m → m ≤ 12 →
      1 ≤ dw → dw ≤ 7 →
      (w < 1 ∨ weeksOfMonth y m < w) →
      (daysSinceEpochFromWeekOfMonthDate y m w dw false).isOk = false ∧
      (daysSinceEpochFromWeekOfMonthDate y m w dw true).isOk = true) := by
  constructor
  · intro y m w dw
    rfl
  · intro y m w dw h1 h2 h3 h4 h5 h6 h7
    refine ⟨?_, rfl⟩
    unfold daysSinceEpochFromWeekOfMonthDate
    simp only [Bool.false_eq_true, if_false]
    rw [if_pos (by omega)]
    rfl

theorem daysSinceEpochFromWeekOfMonthDate_C4_witness :
    (daysSinceEpochFromWeekOfMonthDate 2021 2 6 1 false).isOk = false ∧
    (daysSinceEpochFromWeekOfMonthDate 2021 2 6 1 true).isOk = true :=
  daysSinceEpochFromWeekOfMonthDate_C4.2 2021 2 6 1 (by decide) (by decide)
    (by decide) (by decide) (by decide) (by decide) (Or.inr (by decide))

/- ## String parsing -/

/-- ASCII whitespace, as tolerated by the whitespace-lenient parse modes. -/
def isWhite (c : Char) : Bool :=
  c == ' ' || c == '\t' || c == '\n' || c == '\r' ||
  c == Char.ofNat 11 || c == Char.ofNat 12

/-- Value of a digit string, most significant digit first. -/
def digitsToInt (ds : List Char) : Int :=
  ds.foldl (fun acc c => acc * 10 + ((c.toNat : Int) - 48)) 0

/-- Splits the leading run of decimal digits off a character buffer. -/
def spanDigits (s : List Char) : List Char × List Char :=
  (s.takeWhile Char.isDigit, s.dropWhile Char.isDigit)

/-- Parses one-or-more year digits. -/
def parseYearDigits (s : List Char) : Option (Int × List Char) :=
  match spanDigits s with
  | (ds, rest) => if ds.isEmpty then none else some (digitsToInt ds, rest)

/-- Parses a one-or-two-digit calendar field ([M]M, [D]D, HH, mm, ss). -/
def parseField2 (s : List Char) : Option (Int × List Char) :=
  match spanDigits s with
  | (ds, rest) =>
    if ds.length = 0 ∨ 2 < ds.length then none else some (digitsToInt ds, rest)

/-- Optional leading sign. -/
def parseSign (s : List Char) : Int × List Char :=
  match s with
  | '+' :: r => (1, r)
  | '-' :: r => (-1, r)
  | _ => (1, s)

/-- Modelled from the spec: the common date-element shape
[+-]Y+[-[M]M[-[D]D]]; missing month/day default to 1; returns the unconsumed
remainder of the buffer. -/
def parseDateTriple (s : List Char) : Option ((Int × Int × Int) × List Char) :=
  let (sign, s1) := parseSign s
  match parseYearDigits s1 with
  | none => none
  | some (y, s2) =>
    match s2 with
    | '-' :: s3 =>
      match parseField2 s3 with
      | none => none
      | some (m, s4) =>
        match s4 with
        | '-' :: s5 =>
          match parseField2 s5 with
          | none => none
          | some (d, s6) => some ((sign * y, m, d), s6)
        | _ => some ((sign * y, m, 1), s4)
    | _ => some ((sign * y, 1, 1), s2)

/-- The five date-string parse modes of the source header (lines 56-85). -/
inductive ParseMode where
  | kStrict
  | kNonStrict
  | kPrestoCast
  | kSparkCast
  | kIso8601
deriving DecidableEq

/-- Surrounding-whitespace and trailing-tail tolerance of a date grammar. -/
structure DateGrammarFlags where
  allowSurroundingWhitespace : Bool
  allowTrailingTail : Bool

/-- Modelled from the spec: kIso8601 tolerates no surrounding whitespace,
kPrestoCast is the same shape with surrounding ASCII whitespace tolerated,
kSparkCast additionally tolerates a trailing T or a trailing tail after a
complete date. The exact kStrict/kNonStrict laxities are pinned to an
external reference implementation (spec design note); they are modelled here
with the strict resp. whitespace-tolerant shape, and no claim depends on
them. -/
def dateGrammarOf : ParseMode → DateGrammarFlags
  | .kStrict => ⟨false, false⟩
  | .kNonStrict => ⟨true, false⟩
  | .kPrestoCast => ⟨true, false⟩
  | .kSparkCast => ⟨true, true⟩
  | .kIso8601 => ⟨false, false⟩

/-- Modelled from the spec: casts a string to a date under the grammar of the
given mode (source header lines 153-161); on success delegates the extracted
(year, month, day) to `daysSinceEpochFromDate`; any malformed token or
unconsumed trailing content is a user error. -/
def fromDateString (s : List Char) (mode : ParseMode) : Except String Int :=
  let fl := dateGrammarOf mode
  let s0 := if fl.allowSurroundingWhitespace then s.dropWhile isWhite else s
  match parseDateTriple s0 with
  | none => .error "Unable to parse date"
  | some ((y, m, d), rest) =>
    let tailOk : Bool :=
      if fl.allowTrailingTail then
        match rest with
        | [] => true
        | 'T' :: _ => true
        | ' ' :: _ => true
        | _ => false
      else if fl.allowSurroundingWhitespace then
        (rest.dropWhile isWhite).isEmpty
      else
        rest.isEmpty
    if tailOk then daysSinceEpochFromDate y m d
    else .error "Unable to parse date"

/-- C6: fromDateString("2024-01-01", kIso8601) succeeds and equals
daysSinceEpochFromDate(2024,1,1); the whitespace-padded " 2024-01-01 " is a
user error under kIso8601 (no whitespace tolerance) but succeeds under
kPrestoCast (with the same value). -/
theorem fromDateString_C6 :
    fromDateString (String.toList "2024-01-01") ParseMode.kIso8601 =
      daysSinceEpochFromDate 2024 1 1 ∧
    (fromDateString (String.toList "2024-01-01") ParseMode.kIso8601).isOk = true ∧
    (fromDateString (String.toList " 2024-01-01 ") ParseMode.kIso8601).isOk = false ∧
    (fromDateString (String.toList " 2024-01-01 ") ParseMode.kPrestoCast).isOk = true ∧
    fromDateString (String.toList " 2024-01-01 ") ParseMode.kPrestoCast =
      daysSinceEpochFromDate 2024 1 1 :=
  ⟨rfl, rfl, rfl, rfl, rfl⟩

/-- The four timestamp parse modes of the source header (lines 175-210). -/
inductive TimestampParseMode where
  | kIso8601
  | kPrestoCast
  | kLegacyCast
  | kSparkCast
deriving DecidableEq

/-- Timezone-naive timestamp: seconds since epoch plus nanoseconds; equality
is structural (source Timestamp.h contract per spec data model). -/
structure Timestamp where
  seconds : Int
  nanos : Int
deriving DecidableEq

/-- kPrestoCast, kLegacyCast and kSparkCast allow surrounding spaces per the
header mode comments; kIso8601 mentions none. -/
def tsAllowWhitespace : TimestampParseMode → Bool
  | .kIso8601 => false
  | _ => true

/-- Date/time separators accepted by each mode: kIso8601 requires T,
kPrestoCast a space, kLegacyCast and kSparkCast accept both. -/
def tsSeparators : TimestampParseMode → List Char
  | .kIso8601 => ['T']
  | .kPrestoCast => [' ']
  | .kLegacyCast => ['T', ' ']
  | .kSparkCast => ['T', ' ']

/-- Only the kIso8601 grammar admits a comma as fractional separator. -/
def tsAllowCommaFraction : TimestampParseMode → Bool
  | .kIso8601 => true
  | _ => false

/-- Fractional seconds: a dot (or comma where allowed) followed by digits;
scaled to nanoseconds, further digits truncated. -/
def parseFraction (allowComma : Bool) (s : List Char) : Option (Int × List Char) :=
  match s with
  | c :: s1 =>
    if c = '.' ∨ (allowComma = true ∧ c = ',') then
      let ds := s1.takeWhile Char.isDigit
      if ds.isEmpty then none
      else
        let d9 := ds.take 9
        some (digitsToInt (d9 ++ List.replicate (9 - d9.length) '0'),
              s1.dropWhile Char.isDigit)
    else none
  | [] => none

/-- Modelled from the spec: time-element HH[:mm[:ss[.fraction]]] with wall
clock field validation; returns (seconds of day, nanoseconds) and the
unconsumed remainder; the fraction is attached at the deepest parsed field per
the examples the grammar gives. -/
def parseTimeElement (allowComma : Bool) (s : List Char) :
    Option ((Int × Int) × List Char) :=
  match parseField2 s with
  | none => none
  | some (hh, s1) =>
    if 23 < hh then none
    else
      match s1 with
      | ':' :: s2 =>
        match parseField2 s2 with
        | none => none
        | some (mm, s3) =>
          if 59 < mm then none
          else
            match s3 with
            | ':' :: s4 =>
              match parseField2 s4 with
              | none => none
              | some (ss, s5) =>
                if 59 < ss then none
                else
                  match parseFraction allowComma s5 with
                  | some (ns, s6) => some ((hh * 3600 + mm * 60 + ss, ns), s6)
                  | none => some ((hh * 3600 + mm * 60 + ss, 0), s5)
            | _ => some ((hh * 3600 + mm * 60, 0), s3)
      | _ => some ((hh * 3600, 0), s1)

/-- Modelled from the spec: the datetime portion shared by both timestamp
entry points: date-element, then an optional mode separator and optional
time-element (a missing time-element is midnight); returns the timestamp and
the unconsumed remainder (which may hold an offset/timezone token). -/
def parseDateTimePart (mode : TimestampParseMode) (s : List Char) :
    Except String (Timestamp × List Char) :=
  let s0 := if tsAllowWhitespace mode then s.dropWhile isWhite else s
  match parseDateTriple s0 with
  | none => .error "Unable to parse timestamp"
  | some ((y, m, d), rest) =>
    match daysSinceEpochFromDate y m d with
    | .error e => .error e
    | .ok days =>
      match rest with
      | c :: rest1 =>
        if (tsSeparators mode).contains c then
          match parseTimeElement (tsAllowCommaFraction mode) rest1 with
          | some ((secs, ns), rest2) => .ok (⟨days * kSecsPerDay + secs, ns⟩, rest2)
          | none => .ok (⟨days * kSecsPerDay, 0⟩, rest)
        else .ok (⟨days * kSecsPerDay, 0⟩, rest)
      | [] => .ok (⟨days * kSecsPerDay, 0⟩, [])

/-- Embedded from the header contract (source lines 212-224): parses a
timestamp that carries no timezone information; the doc comment states the
function does not accept timezone information in the string, having ruled out
both converting it and ignoring it, so any unconsumed non-whitespace trailing
content (a timezone token included) is a user error. -/
def fromTimestampString (s : List Char) (mode : TimestampParseMode) :
    Except String Timestamp :=
  match parseDateTimePart mode s with
  | .error e => .error e
  | .ok (ts, rest) =>
    let rest1 := if tsAllowWhitespace mode then rest.dropWhile isWhite else rest
    if rest1.isEmpty then .ok ts else .error "Unable to parse timestamp"

/-- Result of the timezone-aware parse (source lines 232-242): the timestamp,
an optional borrowed registry zone handle (modelled as an opaque index) and an
optional raw offset in milliseconds. -/
structure ParsedTimestampWithTimeZone where
  timestamp : Timestamp
  timeZone : Option Nat
  offsetMillis : Option Int
deriving DecidableEq

/-- Offset tail HH[:MM[:SS[.sss]]] (after the sign), fully consumed, in
milliseconds. -/
def parseOffsetTail (s : List Char) : Option Int :=
  match parseField2 s with
  | none => none
  | some (hh, s1) =>
    match s1 with
    | [] => some (hh * kMillisPerHour)
    | ':' :: s2 =>
      match parseField2 s2 with
      | none => none
      | some (mm, s3) =>
        match s3 with
        | [] => some (hh * kMillisPerHour + mm * kMillisPerMinute)
        | ':' :: s4 =>
          match parseField2 s4 with
          | none => none
          | some (ss, s5) =>
            match s5 with
            | [] => some (hh * kMillisPerHour + mm * kMillisPerMinute +
                ss * kMillisPerSecond)
            | '.' :: s6 =>
              if s6.length = 3 ∧ s6.all Char.isDigit = true then
                some (hh * kMillisPerHour + mm * kMillisPerMinute +
                  ss * kMillisPerSecond + digitsToInt s6)
              else none
            | _ => none
        | _ => none
    | _ => none

/-- A signed numeric offset token (spec: a plus or minus sign then
HH[:MM[:SS[.sss]]]), converted to milliseconds. -/
def parseOffsetMillis (tok : List Char) : Option Int :=
  match tok with
  | '+' :: rest => parseOffsetTail rest
  | '-' :: rest => (parseOffsetTail rest).map Neg.neg
  | _ => none

def utcName : List Char := String.toList "UTC"

/-- Modelled from the spec (§4.5): resolution of the trailing timezone token.
Z resolves to UTC through the registry (offset 0 when the registry lacks it);
a signed numeric offset is converted to milliseconds, with a registry zone of
the same name preferred when one exists; otherwise the token must name a
registry zone; an unresolvable token is a user error. -/
def resolveTimeZoneToken (reg : List Char → Option Nat) (ts : Timestamp)
    (tok : List Char) : Except String ParsedTimestampWithTimeZone :=
  if tok = ['Z'] then
    match reg utcName with
    | some z => .ok ⟨ts, some z, none⟩
    | none => .ok ⟨ts, none, some 0⟩
  else
    match parseOffsetMillis tok with
    | some off =>
      match reg tok with
      | some z => .ok ⟨ts, some z, none⟩
      | none => .ok ⟨ts, none, some off⟩
    | none =>
      match reg tok with
      | some z => .ok ⟨ts, some z, none⟩
      | none => .error "Unknown timezone value"

/-- Modelled from the spec and header (source lines 244-270): the
timezone-aware variant; parses the same datetime portion, then an optional
whitespace-separated trailing timezone token resolved against the external
registry (modelled as a lookup function from token to optional zone handle);
a present but malformed/unknown token fails the whole parse. -/
def fromTimestampWithTimezoneString (reg : List Char → Option Nat)
    (s : List Char) (mode : TimestampParseMode) :
    Except String ParsedTimestampWithTimeZone :=
  match parseDateTimePart mode s with
  | .error e => .error e
  | .ok (ts, rest) =>
    let rest1 := rest.dropWhile isWhite
    if rest1.isEmpty then .ok ⟨ts, none, none⟩
    else
      let tok := rest1.takeWhile (fun c => !(isWhite c))
      let rest2 := (rest1.dropWhile (fun c => !(isWhite c))).dropWhile isWhite
      if rest2.isEmpty then resolveTimeZoneToken reg ts tok
      else .error "Unable to parse timestamp"

/-- A successful timezone-token resolution always carries timezone
information: a zone handle or an offset. -/
theorem resolveTimeZoneToken_ok (reg : List Char → Option Nat) (ts : Timestamp)
    (tok : List Char) (r : ParsedTimestampWithTimeZone)
    (h : resolveTimeZoneToken reg ts tok = .ok r) :
    r.timeZone.isSome = true ∨ r.offsetMillis.isSome = true := by
  unfold resolveTimeZoneToken at h
  split at h
  · split at h <;> (obtain rfl := Except.ok.inj h) <;> simp
  · split at h
    · split at h <;> (obtain rfl := Except.ok.inj h) <;> simp
    · split at h
      · obtain rfl := Except.ok.inj h
        simp
      · exact absurd h (by simp)

/-- C5 counterexample: "2024-01-01 10:00:00 UTC" is a well-formed timestamp
followed by a trailing timezone token that the timezone-aware function
resolves (with a registry knowing UTC), yet `fromTimestampString` returns a
user error instead of succeeding, refuting the claim that it skips the
token. -/
theorem fromTimestampString_C5_counterexample :
    (fromTimestampString (String.toList "2024-01-01 10:00:00 UTC")
      TimestampParseMode.kPrestoCast).isOk = false ∧
    fromTimestampWithTimezoneString
      (fun t => if t = String.toList "UTC" then some 0 else none)
      (String.toList "2024-01-01 10:00:00 UTC") TimestampParseMode.kPrestoCast =
      .ok ⟨⟨1704103200, 0⟩, some 0, none⟩ :=
  ⟨rfl, rfl⟩

/-- C5 (amended): when the datetime portion of the input parses and a
nonempty trailing token remains, `fromTimestampString` returns a user error
(the header contract: timezone information is not accepted, neither converted
nor ignored), while `fromTimestampWithTimezoneString` on the same input
either resolves the token (its result carries a zone handle or an offset) or
fails. -/
theorem fromTimestampString_trailing_C5 :
    ∀ (mode : TimestampParseMode) (s : List Char) (ts : Timestamp)
      (rest : List Char),
      parseDateTimePart mode s = .ok (ts, rest) →
      rest.dropWhile isWhite ≠ [] →
      (fromTimestampString s mode).isOk = false ∧
      (∀ (reg : List Char → Option Nat) (r : ParsedTimestampWithTimeZone),
        fromTimestampWithTimezoneString reg s mode = .ok r →
        r.timeZone.isSome = true ∨ r.offsetMillis.isSome = true) := by
  intro mode s ts rest hparse hne
  have h1 : (rest.dropWhile isWhite).isEmpty = false := by
    cases hh : rest.dropWhile isWhite
    · exact absurd hh hne
    · rfl
  have h2 : rest.isEmpty = false := by
    cases hr : rest
    · rw [hr] at hne
      simp at hne
    · rfl
  constructor
  · simp only [fromTimestampString, hparse]
    cases hw : tsAllowWhitespace mode <;> simp [hw, h1, h2] <;> try rfl
  · intro reg r hok
    simp only [fromTimestampWithTimezoneString, hparse, h1, Bool.false_eq_true,
      if_false] at hok
    split at hok
    · exact resolveTimeZoneToken_ok _ _ _ _ hok
    · exact absurd hok (by simp)

theorem fromTimestampString_trailing_C5_witness :
    (fromTimestampString (String.toList "2024-01-01 10:00:00 GMT")
      TimestampParseMode.kPrestoCast).isOk = false :=
  (fromTimestampString_trailing_C5 TimestampParseMode.kPrestoCast
    (String.toList "2024-01-01 10:00:00 GMT") ⟨1704103200, 0⟩
    (String.toList " GMT") (by rfl) (by decide)).1

/-- C7: parsing "2024-01-01 10:00:00 +05:30" in kPrestoCast mode succeeds;
when the registry does not know the token "+05:30" the result carries
offsetMillis 19800000 and no zone reference, and when the registry resolves
"+05:30" as a canonical zone name the zone reference is preferred (with the
raw offset left unset). -/
theorem fromTimestampWithTimezoneString_C7 (reg : List Char → Option Nat) :
    fromTimestampWithTimezoneString reg
      (String.toList "2024-01-01 10:00:00 +05:30")
      TimestampParseMode.kPrestoCast =
      match reg (String.toList "+05:30") with
      | some z => .ok ⟨⟨1704103200, 0⟩, some z, none⟩
      | none => .ok ⟨⟨1704103200, 0⟩, none, some 19800000⟩ :=
  rfl

/-- Modelled from the spec: composes a Timestamp from an epoch day count and
an intra-day microsecond offset (source line 279). -/
def fromDatetime (daysSinceEpoch microsSinceMidnight : Int) : Timestamp :=
  ⟨daysSinceEpoch * kSecsPerDay + microsSinceMidnight / kMicrosPerSec,
   microsSinceMidnight % kMicrosPerSec * kNanosPerMicro⟩

/-- Modelled from the spec: truncates a Timestamp to an epoch day count,
first applying the zone offset when a timezone is given (source lines
281-283); the zone offset rule at an instant is owned by the external
registry and passed as a function of the opaque zone handle. The truncation
is floor division of the seconds by the seconds of a day, which is what
Euclidean division by the positive 86400 computes. -/
def toDate (zoneOffsetSecondsAt : Nat → Int → Int) (ts : Timestamp)
    (tz : Option Nat) : Int :=
  match tz with
  | some z => (ts.seconds + zoneOffsetSecondsAt z ts.seconds) / kSecsPerDay
  | none => ts.seconds / kSecsPerDay

/-- C8: toDate(fromDatetime(d, t), null) = d for every epoch day count d and
every intra-day microsecond offset t in [0, kMicrosPerHour * 24). -/
theorem toDate_fromDatetime_C8 (zo : Nat → Int → Int) (d t : Int)
    (h0 : 0 ≤ t) (h1 : t < kMicrosPerHour * 24) :
    toDate zo (fromDatetime d t) none = d := by
  simp only [toDate, fromDatetime]
  simp only [kSecsPerDay, kMicrosPerSec, kMicrosPerHour, kMicrosPerMinute,
    kSecsPerMinute, kMinsPerHour] at h1 ⊢
  omega

theorem toDate_fromDatetime_C8_witness :
    (0 : Int) ≤ 5000000 ∧ (5000000 : Int) < kMicrosPerHour * 24 ∧
    toDate (fun _ _ => 0) (fromDatetime 19723 5000000) none = 19723 :=
  ⟨by decide, by decide,
   toDate_fromDatetime_C8 (fun _ _ => 0) 19723 5000000 (by decide) (by decide)⟩

/- ## Task trace metadata writer (src/velox/exec/TaskTraceWriter.cpp) -/

/-- Raw key/value configuration, as returned by rawConfigsCopy(). -/
structure QueryConfig where
  rawConfigs : List (String × String)

/-- The parts of core::QueryCtx that TaskTraceMetadataWriter::write reads. -/
structure QueryCtx where
  queryConfig : QueryConfig
  connectorSessionProperties : List (String × QueryConfig)

/-- A plan node, abstracted to its serialized form (planNode->serialize()). -/
structure PlanNode where
  serialized : String

/-- The single JSON object assembled by write (source lines 41-62): the query
config key/values, the per-connector session properties and the serialized
plan, under their trace keys. -/
structure TraceMetadata where
  queryConfig : List (String × String)
  connectorProperties : List (String × List (String × String))
  planNode : String

/-- Assembly of the metadata object, mirroring source lines 41-60. -/
def buildTraceMetadata (queryCtx : QueryCtx) (planNode : PlanNode) :
    TraceMetadata :=
  ⟨queryCtx.queryConfig.rawConfigs,
   queryCtx.connectorSessionProperties.map (fun p => (p.1, p.2.rawConfigs)),
   planNode.serialized⟩

/-- Behavior of the file system on one write call: the file operations
(openFileForWrite on line 63, append on line 64) may throw. -/
inductive FsBehavior where
  | ok
  | failOpen
  | failAppend

/-- The writer state: the finished_ member and the contents of the trace file
at traceFilePath_. The constructor (source lines 26-34) checks that the trace
file does not exist yet, so a fresh writer has an empty file. -/
structure TaskTraceMetadataWriter where
  finished : Bool
  fileChunks : List TraceMetadata

def TaskTraceMetadataWriter.fresh : TaskTraceMetadataWriter := ⟨false, []⟩

/-- Embedded from TaskTraceMetadataWriter::write (source lines 36-66). The
VELOX_CHECK on finished_ (line 39) throws when the writer already ran, and
finished_ is set to true on line 40, before the serialization (lines 41-62)
and the file operations (lines 63-65); a thrown exception is the error
component, and the state component is the writer state after the call. -/
def TaskTraceMetadataWriter.write (fb : FsBehavior)
    (w : TaskTraceMetadataWriter) (queryCtx : QueryCtx) (planNode : PlanNode) :
    TaskTraceMetadataWriter × Except String Unit :=
  if w.finished then (w, .error "Query metadata can only be written once")
  else
    let w1 : TaskTraceMetadataWriter := { w with finished := true }
    let metaObj := buildTraceMetadata queryCtx planNode
    match fb with
    | .failOpen => (w1, .error "failed to open trace file")
    | .failAppend => (w1, .error "failed to append to trace file")
    | .ok => ({ w1 with fileChunks := w1.fileChunks ++ [metaObj] }, .ok ())

/-- C9: on a fresh writer the first write succeeds and appends exactly one
metadata object (query config, connector properties, serialized plan) to the
trace file; every subsequent call on the same instance fails the
"Query metadata can only be written once" check and leaves the writer (and
the file) unchanged instead of writing again. -/
theorem taskTraceMetadataWriter_write_once_C9 (q : QueryCtx) (p : PlanNode) :
    (TaskTraceMetadataWriter.write .ok .fresh q p).2 = .ok () ∧
    (TaskTraceMetadataWriter.write .ok .fresh q p).1.fileChunks =
      [buildTraceMetadata q p] ∧
    ∀ (fb : FsBehavior) (q2 : QueryCtx) (p2 : PlanNode),
      (TaskTraceMetadataWriter.write fb
        (TaskTraceMetadataWriter.write .ok .fresh q p).1 q2 p2).2 =
        .error "Query metadata can only be written once" ∧
      (TaskTraceMetadataWriter.write fb
        (TaskTraceMetadataWriter.write .ok .fresh q p).1 q2 p2).1 =
        (TaskTraceMetadataWriter.write .ok .fresh q p).1 :=
  ⟨rfl, rfl, fun _ _ _ => ⟨rfl, rfl⟩⟩

/-- C10: write sets the finished flag before performing any serialization or
file I/O, so even when the call fails partway (the open or the append
throwing) the writer permanently refuses subsequent write calls; the state
change is not rolled back on error. -/
theorem taskTraceMetadataWriter_failed_write_C10 (fb : FsBehavior)
    (w : TaskTraceMetadataWriter) (q : QueryCtx) (p : PlanNode)
    (h : w.finished = false) :
    (TaskTraceMetadataWriter.write fb w q p).1.finished = true ∧
    ((TaskTraceMetadataWriter.write FsBehavior.failOpen w q p).2.isOk = false ∧
     (TaskTraceMetadataWriter.write FsBehavior.failAppend w q p).2.isOk = false) ∧
    ∀ (fb2 : FsBehavior) (q2 : QueryCtx) (p2 : PlanNode),
      (TaskTraceMetadataWriter.write fb2
        (TaskTraceMetadataWriter.write fb w q p).1 q2 p2).2 =
        .error "Query metadata can only be written once" := by
  cases fb <;> simp [TaskTraceMetadataWriter.write, h] <;> exact ⟨rfl, rfl⟩

theorem taskTraceMetadataWriter_failed_write_C10_witness :
    TaskTraceMetadataWriter.fresh.finished = false ∧
    (TaskTraceMetadataWriter.write FsBehavior.failOpen .fresh
      ⟨⟨[]⟩, []⟩ ⟨"plan"⟩).1.finished = true ∧
    (TaskTraceMetadataWriter.write FsBehavior.failAppend
      (TaskTraceMetadataWriter.write FsBehavior.failOpen .fresh
        ⟨⟨[]⟩, []⟩ ⟨"plan"⟩).1 ⟨⟨[]⟩, []⟩ ⟨"plan"⟩).2 =
      .error "Query metadata can only be written once" :=
  ⟨rfl,
   (taskTraceMetadataWriter_failed_write_C10 FsBehavior.failOpen .fresh
     ⟨⟨[]⟩, []⟩ ⟨"plan"⟩ rfl).1,
   (taskTraceMetadataWriter_failed_write_C10 FsBehavior.failOpen .fresh
     ⟨⟨[]⟩, []⟩ ⟨"plan"⟩ rfl).2.2 FsBehavior.failAppend ⟨⟨[]⟩, []⟩ ⟨"plan"⟩⟩
